import Mathlib

/-!
Verification development for the website-audit tool (`src/website_audit.py`).

The repository's core is modelled shallowly:
* pure numeric code (`summarize_load_results`, `auto_scale`) is translated to
  functions over `ℚ` (floating point treated as exact rational arithmetic,
  Python `round` modelled as round-half-to-even);
* the network is an explicit parameter: `analyze_page` receives the ambient
  fetch behaviour as a function `String → FetchOutcome`, and `crawl_site`
  receives a `CrawlEnv` bundling the fetch used for auditing, the fetch used
  for link extraction, and the `urllib.parse` helpers `urljoin` / `netloc`
  (external library functions kept abstract);
* the HTML parse of a fetched response (BeautifulSoup) is abstracted to the
  boolean facts the audit rules inspect, recorded on the `Page` structure;
* `requests.Response.headers` is a `CaseInsensitiveDict`, so membership tests
  on it compare header names case-insensitively; this is modelled by
  lower-casing keys in `headersContain`.
-/

namespace WebsiteAudit

/-- The fixed security-header list `SECURITY_HEADERS` from the source. -/
def SECURITY_HEADERS : List String :=
  ["Content-Security-Policy",
   "Strict-Transport-Security",
   "X-Frame-Options",
   "X-Content-Type-Options"]

/-- The facts about a fetched HTTP response that the audit rules inspect:
the status code, the response headers (as key/value pairs), and the
boolean outcomes of the BeautifulSoup queries made by `analyze_page`. -/
structure Page where
  status_code : Int
  headers : List (String × String)
  titleBlank : Bool
  hasMetaDescription : Bool
  hasH1 : Bool
  htmlPresent : Bool
  htmlHasLang : Bool
  someImgMissingAlt : Bool
deriving DecidableEq

/-- Outcome of `fetch_page`: either an error string (the caught exception,
possibly empty) or the response together with the measured elapsed time. -/
def FetchOutcome : Type := Except String (Page × ℚ)

/-- A record status: either an HTTP status code or the "Error" marker. -/
inductive StatusVal where
  | errorMarker : StatusVal
  | code (n : Int) : StatusVal
deriving DecidableEq

/-- The per-page audit record built by `analyze_page`. -/
structure AuditRecord where
  url : String
  status : StatusVal
  load_time : Option ℚ
  security : List String
  seo : List String
  accessibility : List String
  error : Option String
deriving DecidableEq

/-- Python `str.lower()` (restricted to ASCII case mapping, which covers
HTTP header names). -/
def lowercase (s : String) : String :=
  String.mk (s.data.map Char.toLower)

/-- Membership test `h in r.headers`. `requests` stores response headers in a
`CaseInsensitiveDict`, whose `in` compares lower-cased keys. -/
def headersContain (headers : List (String × String)) (h : String) : Bool :=
  headers.any (fun kv => lowercase kv.1 == lowercase h)

/-- Python `url.startswith(p)`: `p.data` is a list prefix of `url.data`. -/
def startswith (s p : String) : Bool := p.data.isPrefixOf s.data

/-- `analyze_page(url)`, with the ambient network passed as `fetch`.
On fetch failure the record keeps status "Error", the (non-empty) error
string, and empty finding lists; on success the security / SEO /
accessibility rules run in their fixed order. -/
def analyze_page (fetch : String → FetchOutcome) (url : String) : AuditRecord :=
  match fetch url with
  | .error e =>
      { url := url
        status := .errorMarker
        load_time := none
        security := []
        seo := []
        accessibility := []
        error := some (if e = "" then "Fetch error" else e) }
  | .ok (r, elapsed) =>
      { url := url
        status := .code r.status_code
        load_time := some elapsed
        security :=
          (if startswith url "http://" then ["Site is not using HTTPS"] else [])
          ++ (SECURITY_HEADERS.filter
                (fun h => !headersContain r.headers h)).map
              (fun h => "Missing security header: " ++ h)
        seo :=
          (if r.titleBlank then ["Missing <title> tag"] else [])
          ++ (if !r.hasMetaDescription then ["Missing meta description"] else [])
          ++ (if !r.hasH1 then ["Missing <h1> heading"] else [])
        accessibility :=
          (if r.htmlPresent && !r.htmlHasLang then
            ["<html> tag missing \x27lang\x27 attribute"] else [])
          ++ (if r.someImgMissingAlt then ["Image missing alt attribute"] else [])
        error := none }

/-- `link.split('#')[0]`: the prefix of the string before the first `#`. -/
def stripFragment (s : String) : String :=
  String.mk (s.data.takeWhile (fun c => c ≠ '#'))

/-- The scheme of a URL in the RFC sense: the characters before the first
`:`. Used only to state the spec's "URL scheme is not HTTPS" claims. -/
def schemeChars (u : String) : List Char :=
  u.data.takeWhile (fun c => c ≠ ':')

/-- Whether the URL's scheme is HTTPS.  Schemes are case-insensitive per
RFC 3986, so the characters are lower-cased before comparing. -/
def isHttpsScheme (u : String) : Bool :=
  (schemeChars u).map Char.toLower == "https".data

/-- The ambient environment of one crawl: the fetch used by `analyze_page`,
the separate fetch used for link extraction (`none` models a raised
exception, otherwise the status code and the raw `href` attributes of the
page's anchors), and the `urllib.parse` helpers. -/
structure CrawlEnv where
  fetch : String → FetchOutcome
  linkFetch : String → Option (Int × List String)
  urljoin : String → String → String
  netloc : String → String

/-- The body of the link loop of `crawl_site`: each resolved,
fragment-stripped link is appended to the queue when its netloc equals the
start URL's netloc and it is in neither `visited` nor the current queue. -/
def enqueueLinks (env : CrawlEnv) (start_url : String) (visited : List String)
    (queue : List String) : List String → List String
  | [] => queue
  | link :: rest =>
      enqueueLinks env start_url visited
        (if env.netloc link = env.netloc start_url ∧ link ∉ visited ∧ link ∉ queue
         then queue ++ [link] else queue) rest

/-- The `while` loop of `crawl_site`, returning the final results list and
the final visited set (as the list of visited URLs, most recent first). -/
def crawlLoop (env : CrawlEnv) (start_url : String) (max_pages : Nat) :
    List String → List String → List AuditRecord → List AuditRecord × List String
  | [], visited, results => (results, visited)
  | url :: rest, visited, results =>
      if _h1 : visited.length < max_pages then
        if _h2 : url ∈ visited then
          crawlLoop env start_url max_pages rest visited results
        else
          let results' := results ++ [analyze_page env.fetch url]
          match env.linkFetch url with
          | none => crawlLoop env start_url max_pages rest (url :: visited) results'
          | some (status, hrefs) =>
              if status = 200 then
                crawlLoop env start_url max_pages
                  (enqueueLinks env start_url (url :: visited) rest
                    (hrefs.map (fun a => stripFragment (env.urljoin url a))))
                  (url :: visited) results'
              else
                crawlLoop env start_url max_pages rest (url :: visited) results'
      else (results, visited)
  termination_by queue visited _ => (max_pages - visited.length, queue.length)
  decreasing_by
  all_goals first
    | exact Prod.Lex.right _ (Nat.lt_succ_self _)
    | exact Prod.Lex.left _ _ (by simp; omega)

/-- `crawl_site(start_url, max_pages)`: the returned audit-record list. -/
def crawl_site (env : CrawlEnv) (start_url : String) (max_pages : Nat) :
    List AuditRecord :=
  (crawlLoop env start_url max_pages [start_url] [] []).1

/-- The visited set at the end of a crawl.  Since `visited` only ever grows
during the loop, every URL that is in the visited set at some step of the
crawl is a member of this list. -/
def crawlVisited (env : CrawlEnv) (start_url : String) (max_pages : Nat) :
    List String :=
  (crawlLoop env start_url max_pages [start_url] [] []).2

/-- One load sample recorded by `fetch_once`. -/
structure LoadSample where
  status : StatusVal
  time : Option ℚ
deriving DecidableEq

/-- The sizes of the successive waves of `run_load_test`:
`wave = min(batch_size, remaining)` with `batch_size = 300`. -/
def waveSizes (remaining : Nat) : List Nat :=
  if remaining = 0 then []
  else
    let wave := min 300 remaining
    wave :: waveSizes (remaining - wave)
  termination_by remaining
  decreasing_by simp [wave]; omega

/-- The wave loop of `run_load_test`: `sample i` is the outcome of the
`i`-th simulated request overall (the ambient network behaviour of
`fetch_once`); each wave contributes `min 300 remaining` samples, then the
next wave starts. -/
def runLoadTestLoop (sample : Nat → LoadSample) (idx remaining : Nat) :
    List LoadSample :=
  if remaining = 0 then []
  else
    let wave := min 300 remaining
    (List.range wave).map (fun i => sample (idx + i))
      ++ runLoadTestLoop sample (idx + wave) (remaining - wave)
  termination_by remaining
  decreasing_by simp [wave]; omega

/-- `run_load_test(url, users)` with the ambient per-request outcomes
passed as `sample`. -/
def run_load_test (sample : Nat → LoadSample) (users : Nat) : List LoadSample :=
  runLoadTestLoop sample 0 users

/-- Python `round` on an exact rational: round half to even. -/
def pyRound (q : ℚ) : ℤ :=
  if q - ⌊q⌋ < 1/2 then ⌊q⌋
  else if 1/2 < q - ⌊q⌋ then ⌊q⌋ + 1
  else if ⌊q⌋ % 2 = 0 then ⌊q⌋ else ⌊q⌋ + 1

/-- Python `round(q, 3)`. -/
def round3 (q : ℚ) : ℚ := (pyRound (q * 1000) : ℚ) / 1000

/-- Python `int` on a rational: truncation toward zero. -/
def pyInt (q : ℚ) : ℤ := q.num.tdiv (q.den : ℤ)

/-- The load summary produced by `summarize_load_results`. -/
structure LoadSummary where
  total : Nat
  success : Nat
  failures : Nat
  avg : Option ℚ
  p95 : Option ℚ
  histogram : ℚ → Nat

/-- The list `times` of `summarize_load_results`: the non-null elapsed
times, in sample order. -/
def timedSamples (results : List LoadSample) : List ℚ :=
  results.filterMap (fun r => r.time)

/-- `summarize_load_results(results)`. -/
def summarize_load_results (results : List LoadSample) : LoadSummary :=
  let total := results.length
  let success := (results.filter (fun r => r.status = .code 200)).length
  let failures := total - success
  let times := timedSamples results
  let avg := if times.isEmpty then none
             else some (round3 (times.sum / (times.length : ℚ)))
  let p95 := if times.isEmpty then none
             else
               let s := times.insertionSort (· ≤ ·)
               let idx := (pyInt ((95/100 : ℚ) * ((s.length : ℚ) - 1))).toNat
               some (s.getD idx 0)
  { total := total
    success := success
    failures := failures
    avg := avg
    p95 := p95
    histogram := fun b =>
      (times.filter (fun t => ((pyInt (t * 10) : ℚ) / 10) = b)).length }

/-- The estimate produced by `auto_scale`. -/
structure ScaleEstimate where
  servers : ℤ
  scaled_avg : Option ℚ
  processed : Nat
  failed : Nat
deriving DecidableEq

/-- `auto_scale(avg_time, target, load_summary)`. -/
def auto_scale (avg_time : Option ℚ) (target : ℚ) (load_summary : LoadSummary) :
    ScaleEstimate :=
  match avg_time with
  | none =>
      { servers := 1
        scaled_avg := none
        processed := load_summary.success
        failed := load_summary.failures }
  | some a =>
      if a ≤ 0 then
        { servers := 1
          scaled_avg := some a
          processed := load_summary.success
          failed := load_summary.failures }
      else
        let servers := max 1 ⌈a / target⌉
        { servers := servers
          scaled_avg := some (round3 (a / (servers : ℚ)))
          processed := load_summary.total
          failed := 0 }

/-! ### Concrete fixtures used by witnesses and counterexamples -/

/-- A response page carrying the given headers and no audit issues
otherwise. -/
def pageWith (hs : List (String × String)) : Page :=
  { status_code := 200
    headers := hs
    titleBlank := false
    hasMetaDescription := true
    hasH1 := true
    htmlPresent := true
    htmlHasLang := true
    someImgMissingAlt := false }

/-- A network on which every fetch succeeds with the given page. -/
def fetchOk (p : Page) : String → FetchOutcome :=
  fun _ => Except.ok (p, 1)

/-- A network on which every fetch raises. -/
def fetchErr : String → FetchOutcome :=
  fun _ => Except.error "connection refused"

/-- A crawl environment whose audit fetches succeed (page with no
headers) and whose link-extraction fetches raise. -/
def cEnvNoLinks : CrawlEnv :=
  { fetch := fetchOk (pageWith [])
    linkFetch := fun _ => none
    urljoin := fun _ href => href
    netloc := fun _ => "h" }

/-- A load sample that succeeded with the given elapsed time. -/
def sampleOfTime (q : ℚ) : LoadSample :=
  { status := .code 200, time := some q }

/-! ### Theorems -/

/-- Helper: Python `int` truncation agrees with the floor on nonnegative
rationals. -/
theorem pyInt_eq_floor (q : ℚ) (hq : 0 ≤ q) : pyInt q = ⌊q⌋ := by
  rw [pyInt, Rat.floor_def]
  exact Int.tdiv_eq_ediv (Rat.num_nonneg.mpr hq) (Int.ofNat_nonneg _)

/-- Helper: a successful Python `startswith` exhibits the list prefix. -/
theorem startswith_exists {s p : String} (h : startswith s p = true) :
    ∃ t, p.data ++ t = s.data := by
  rw [startswith] at h
  exact List.isPrefixOf_iff_prefix.mp h

/-- Helper: a URL starting with the literal `http://` has scheme `http`. -/
theorem schemeChars_http (u : String) (h : startswith u "http://" = true) :
    schemeChars u = "http".data := by
  obtain ⟨t, ht⟩ := startswith_exists h
  rw [schemeChars, ← ht]
  rw [show "http://".data = 'h' :: 't' :: 't' :: 'p' :: ':' :: '/' :: '/' :: ([] : List Char) from rfl]
  simp [List.takeWhile_cons]

/-- Helper: a URL starting with the literal `https://` has scheme `https`. -/
theorem schemeChars_https (u : String) (h : startswith u "https://" = true) :
    schemeChars u = "https".data := by
  obtain ⟨t, ht⟩ := startswith_exists h
  rw [schemeChars, ← ht]
  rw [show "https://".data = 'h' :: 't' :: 't' :: 'p' :: 's' :: ':' :: '/' :: '/' :: ([] : List Char) from rfl]
  simp [List.takeWhile_cons]

/-- Helper: the scheme of an `http://` URL is not HTTPS. -/
theorem isHttpsScheme_of_http (u : String) (h : startswith u "http://" = true) :
    isHttpsScheme u = false := by
  rw [isHttpsScheme, schemeChars_http u h]
  decide

/-- Helper: the scheme of an `https://` URL is HTTPS. -/
theorem isHttpsScheme_of_https (u : String) (h : startswith u "https://" = true) :
    isHttpsScheme u = true := by
  rw [isHttpsScheme, schemeChars_https u h]
  decide

/-- Helper: a URL cannot start with both `https://` and `http://`. -/
theorem not_startswith_http_of_https (u : String)
    (h : startswith u "https://" = true) :
    startswith u "http://" = false := by
  obtain ⟨t1, ht1⟩ := startswith_exists h
  by_contra hc
  rw [Bool.not_eq_false] at hc
  obtain ⟨t2, ht2⟩ := startswith_exists hc
  have hcomb : "https://".data ++ t1 = "http://".data ++ t2 := ht1.trans ht2.symm
  rw [show "https://".data = 'h' :: 't' :: 't' :: 'p' :: 's' :: ':' :: '/' :: '/' :: ([] : List Char) from rfl,
      show "http://".data = 'h' :: 't' :: 't' :: 'p' :: ':' :: '/' :: '/' :: ([] : List Char) from rfl] at hcomb
  simp at hcomb

/-- Helper: a missing-header finding never equals the HTTPS finding. -/
theorem missing_ne_site (hd : String) :
    ("Missing security header: " ++ hd) ≠ "Site is not using HTTPS" := by
  intro heq
  have h1 := congrArg String.data heq
  rw [String.data_append] at h1
  rw [show "Missing security header: ".data
      = 'M' :: "issing security header: ".data from rfl] at h1
  rw [show "Site is not using HTTPS".data
      = 'S' :: "ite is not using HTTPS".data from rfl] at h1
  simp at h1

/-- Helper: appending on the left of strings is cancellative. -/
theorem append_left_cancel_str {pre a b : String} (h : pre ++ a = pre ++ b) :
    a = b := by
  apply String.ext
  have h1 : pre.data ++ a.data = pre.data ++ b.data := by
    have h2 := congrArg String.data h
    simpa [String.data_append] using h2
  exact List.append_cancel_left h1

/-- Helper: the HTTPS finding is not among the missing-header findings. -/
theorem site_notMem_missing (hs : List (String × String)) :
    "Site is not using HTTPS"
      ∉ (SECURITY_HEADERS.filter (fun h2 => !headersContain hs h2)).map
          (fun h2 => "Missing security header: " ++ h2) := by
  intro hmem
  obtain ⟨h2, _, heq⟩ := List.mem_map.mp hmem
  exact missing_ne_site h2 heq

/-- Helper: the security list of a successfully fetched page, read off
`analyze_page`. -/
theorem analyze_page_security_eq (fetch : String → FetchOutcome) (url : String)
    (page : Page) (t : ℚ) (h : fetch url = Except.ok (page, t)) :
    (analyze_page fetch url).security
      = (if startswith url "http://" = true then ["Site is not using HTTPS"] else [])
        ++ (SECURITY_HEADERS.filter (fun hd => !headersContain page.headers hd)).map
            (fun hd => "Missing security header: " ++ hd) := by
  simp only [analyze_page, h]

/-- C9: on a fetch failure the audit record carries the "Error" status
marker and a non-null error string (the exception text, or `"Fetch error"`
when that text is empty), a null load time, and empty finding lists. -/
theorem analyze_page_error_spec (fetch : String → FetchOutcome) (url e : String)
    (h : fetch url = Except.error e) :
    (analyze_page fetch url).status = .errorMarker
    ∧ (analyze_page fetch url).error = some (if e = "" then "Fetch error" else e)
    ∧ (analyze_page fetch url).error ≠ none
    ∧ (analyze_page fetch url).load_time = none
    ∧ (analyze_page fetch url).security = []
    ∧ (analyze_page fetch url).seo = []
    ∧ (analyze_page fetch url).accessibility = [] := by
  simp [analyze_page, h]

/-- Witness for C9 on a network that refuses every connection. -/
theorem analyze_page_error_spec_witness :
    fetchErr "http://h/a" = Except.error "connection refused"
    ∧ (analyze_page fetchErr "http://h/a").status = .errorMarker :=
  ⟨rfl, (analyze_page_error_spec fetchErr "http://h/a" "connection refused" rfl).1⟩

/-- C5 (amended): for a successfully fetched page the HTTPS finding is
present iff the URL starts with the literal `"http://"`; hence for URLs
written with a lower-case scheme (starting with `"http://"` or
`"https://"`) it is present iff the scheme is not HTTPS. -/
theorem analyze_scheme_spec (fetch : String → FetchOutcome) (url : String)
    (page : Page) (t : ℚ) (h : fetch url = Except.ok (page, t)) :
    ("Site is not using HTTPS" ∈ (analyze_page fetch url).security
        ↔ startswith url "http://" = true)
    ∧ (startswith url "http://" = true ∨ startswith url "https://" = true →
        ("Site is not using HTTPS" ∈ (analyze_page fetch url).security
          ↔ isHttpsScheme url = false)) := by
  have hsec := analyze_page_security_eq fetch url page t h
  have hmem : ("Site is not using HTTPS" ∈ (analyze_page fetch url).security
      ↔ startswith url "http://" = true) := by
    rw [hsec, List.mem_append]
    constructor
    · rintro (hin | hin)
      · by_cases hsw : startswith url "http://" = true
        · exact hsw
        · rw [if_neg hsw] at hin
          cases hin
      · exact absurd hin (site_notMem_missing page.headers)
    · intro hsw
      left
      rw [if_pos hsw]
      exact List.mem_singleton.mpr rfl
  refine ⟨hmem, ?_⟩
  rintro (hsw | hsw)
  · rw [hmem, isHttpsScheme_of_http url hsw]
    simp [hsw]
  · rw [hmem, isHttpsScheme_of_https url hsw, not_startswith_http_of_https url hsw]
    simp

/-- Counterexample for C5 as stated: the URL `"HTTP://example.com/"` is
successfully fetched and its scheme is not HTTPS (it is `http`, written in
upper case), yet the HTTPS finding is absent, because the code tests the
case-sensitive literal prefix `"http://"`. -/
theorem analyze_scheme_counterexample :
    isHttpsScheme "HTTP://example.com/" = false
    ∧ "Site is not using HTTPS"
        ∉ (analyze_page (fetchOk (pageWith [])) "HTTP://example.com/").security :=
  ⟨by decide, by decide⟩

/-- Witness for C5 (amended) at a successfully fetched `http://` URL. -/
theorem analyze_scheme_spec_witness :
    ("Site is not using HTTPS"
        ∈ (analyze_page (fetchOk (pageWith [])) "http://example.com/").security
      ↔ startswith "http://example.com/" "http://" = true)
    ∧ (startswith "http://example.com/" "http://" = true
        ∨ startswith "http://example.com/" "https://" = true →
        ("Site is not using HTTPS"
            ∈ (analyze_page (fetchOk (pageWith [])) "http://example.com/").security
          ↔ isHttpsScheme "http://example.com/" = false)) :=
  analyze_scheme_spec (fetchOk (pageWith [])) "http://example.com/" (pageWith []) 1 rfl

/-- C6 (amended): for a successfully fetched page, one missing-header
finding is emitted, in the fixed list order after the scheme check, for
exactly those headers of the fixed set absent from the response headers —
with the membership test case-insensitive (as `requests` stores headers in
a case-insensitive dict), so a header sent under a different casing counts
as present; an `http://` page with no headers yields exactly the 5 findings
in fixed order. -/
theorem analyze_headers_spec (fetch : String → FetchOutcome) (url : String)
    (page : Page) (t : ℚ) (h : fetch url = Except.ok (page, t)) :
    (∀ hd ∈ SECURITY_HEADERS,
        (("Missing security header: " ++ hd) ∈ (analyze_page fetch url).security
          ↔ headersContain page.headers hd = false))
    ∧ (analyze_page fetch url).security
        = (if startswith url "http://" = true then ["Site is not using HTTPS"] else [])
          ++ (SECURITY_HEADERS.filter (fun hd => !headersContain page.headers hd)).map
              (fun hd => "Missing security header: " ++ hd)
    ∧ headersContain [("content-security-policy", "v")] "Content-Security-Policy" = true
    ∧ (analyze_page (fetchOk (pageWith [])) "http://example.com/").security
        = ["Site is not using HTTPS",
           "Missing security header: Content-Security-Policy",
           "Missing security header: Strict-Transport-Security",
           "Missing security header: X-Frame-Options",
           "Missing security header: X-Content-Type-Options"] := by
  have hsec := analyze_page_security_eq fetch url page t h
  refine ⟨?_, hsec, by decide, by decide⟩
  intro hd hdmem
  rw [hsec, List.mem_append]
  constructor
  · rintro (hin | hin)
    · exfalso
      by_cases hsw : startswith url "http://" = true
      · rw [if_pos hsw] at hin
        exact missing_ne_site hd (List.mem_singleton.mp hin)
      · rw [if_neg hsw] at hin
        cases hin
    · obtain ⟨a, hafil, haeq⟩ := List.mem_map.mp hin
      obtain ⟨-, hana⟩ := List.mem_filter.mp hafil
      have ha : a = hd := append_left_cancel_str haeq
      subst ha
      simpa using hana
  · intro hfalse
    right
    apply List.mem_map.mpr
    exact ⟨hd, List.mem_filter.mpr ⟨hdmem, by simp [hfalse]⟩, rfl⟩

/-- Counterexample for C6 as stated: the claim calls the membership test
case-sensitive, predicting the Content-Security-Policy finding for a
response that carries that header in lower case; the code (via the
case-insensitive header dict) emits no such finding. -/
theorem analyze_headers_counterexample :
    headersContain [("content-security-policy", "x")] "Content-Security-Policy" = true
    ∧ "Missing security header: Content-Security-Policy"
        ∉ (analyze_page (fetchOk (pageWith [("content-security-policy", "x")]))
            "https://example.com/").security :=
  ⟨by decide, by decide⟩

/-- Witness for C6 (amended) at a successfully fetched page with no
headers. -/
theorem analyze_headers_spec_witness :
    ("Missing security header: Content-Security-Policy"
        ∈ (analyze_page (fetchOk (pageWith [])) "https://example.com/").security
      ↔ headersContain (pageWith []).headers "Content-Security-Policy" = false) :=
  (analyze_headers_spec (fetchOk (pageWith [])) "https://example.com/"
      (pageWith []) 1 rfl).1 "Content-Security-Policy" (by decide)

/-- Helper: Python `round` is the identity on integers. -/
theorem pyRound_intCast (n : ℤ) : pyRound ((n : ℚ)) = n := by
  simp [pyRound]

/-- Helper: every wave has between 1 and 300 requests. -/
theorem waveSizes_bounds :
    ∀ remaining, ∀ w ∈ waveSizes remaining, 1 ≤ w ∧ w ≤ 300 := by
  intro remaining
  induction remaining using Nat.strong_induction_on with
  | _ n ih =>
    intro w hw
    rw [waveSizes] at hw
    split at hw
    · simp at hw
    · rename_i hn
      simp only [List.mem_cons] at hw
      rcases hw with hw | hw
      · subst hw
        constructor <;> omega
      · exact ih _ (by omega) w hw

/-- Helper: the wave sizes sum to the requested user count. -/
theorem waveSizes_sum : ∀ remaining, (waveSizes remaining).sum = remaining := by
  intro remaining
  induction remaining using Nat.strong_induction_on with
  | _ n ih =>
    rw [waveSizes]
    split
    · rename_i hn
      simp [hn]
    · rename_i hn
      simp only [List.sum_cons]
      rw [ih _ (by omega)]
      omega

/-- Helper: the wave loop emits exactly `remaining` samples. -/
theorem runLoadTestLoop_length (sample : Nat → LoadSample) :
    ∀ remaining idx, (runLoadTestLoop sample idx remaining).length = remaining := by
  intro remaining
  induction remaining using Nat.strong_induction_on with
  | _ n ih =>
    intro idx
    rw [runLoadTestLoop]
    split
    · rename_i hn
      simp [hn]
    · rename_i hn
      simp only [List.length_append, List.length_map, List.length_range]
      rw [ih _ (by omega)]
      omega

/-- Helper: the wave sizes for 700 users are 300, 300, 100. -/
theorem waveSizes_700 : waveSizes 700 = [300, 300, 100] := by
  rw [waveSizes]
  norm_num
  rw [waveSizes]
  norm_num
  rw [waveSizes]
  norm_num
  rw [waveSizes]
  norm_num

/-- C4: `run_load_test` returns exactly `users` samples, produced in waves
of size `min 300 remaining` (each between 1 and 300, summing to `users`);
with `users = 700` the waves are `300, 300, 100` and exactly 700 samples
come back. -/
theorem run_load_test_spec (sample : Nat → LoadSample) (users : Nat)
    (_h : 1 ≤ users) :
    (run_load_test sample users).length = users
    ∧ (waveSizes users).sum = users
    ∧ (∀ w ∈ waveSizes users, 1 ≤ w ∧ w ≤ 300)
    ∧ waveSizes 700 = [300, 300, 100]
    ∧ (run_load_test sample 700).length = 700 :=
  ⟨runLoadTestLoop_length sample users 0,
   waveSizes_sum users,
   waveSizes_bounds users,
   waveSizes_700,
   runLoadTestLoop_length sample 700 0⟩

/-- Witness for C4 at `users = 700`. -/
theorem run_load_test_spec_witness :
    (run_load_test (fun _ => sampleOfTime 1) 700).length = 700 :=
  (run_load_test_spec (fun _ => sampleOfTime 1) 700 (by norm_num)).1

/-- C2: when at least one sample carries a time, `avg` is the mean of the
timed samples rounded to three decimals and `p95` is the entry of the
ascending sort at index `⌊0.95 × (n-1)⌋` (a valid index); with no timed
samples both are undefined; and on times `[1,2,3,4,5]` the summary has
`avg = 3` and `p95 = 4`. -/
theorem summarize_load_results_spec (results : List LoadSample) :
    (timedSamples results ≠ [] →
        (summarize_load_results results).avg
          = some (round3 ((timedSamples results).sum
              / ((timedSamples results).length : ℚ)))
        ∧ ∃ h : (⌊(95/100 : ℚ) * (((timedSamples results).length : ℚ) - 1)⌋).toNat
              < ((timedSamples results).insertionSort (· ≤ ·)).length,
            (summarize_load_results results).p95
              = some (((timedSamples results).insertionSort (· ≤ ·)).get
                  ⟨(⌊(95/100 : ℚ) * (((timedSamples results).length : ℚ) - 1)⌋).toNat,
                   h⟩))
    ∧ (timedSamples results = [] →
        (summarize_load_results results).avg = none
        ∧ (summarize_load_results results).p95 = none)
    ∧ (summarize_load_results ([1,2,3,4,5].map (fun q : ℚ => sampleOfTime q))).avg
        = some 3
    ∧ (summarize_load_results ([1,2,3,4,5].map (fun q : ℚ => sampleOfTime q))).p95
        = some 4 := by
  have hconc : timedSamples ([1,2,3,4,5].map (fun q : ℚ => sampleOfTime q))
      = [1,2,3,4,5] := by
    simp [timedSamples, sampleOfTime]
  refine ⟨?_, ?_, ?_, ?_⟩
  · intro hne
    have hn : 0 < (timedSamples results).length := List.length_pos.mpr hne
    have hemp : (timedSamples results).isEmpty = false := by
      simp [List.isEmpty_iff, hne]
    have hlen : ((timedSamples results).insertionSort (· ≤ ·)).length
        = (timedSamples results).length := List.length_insertionSort _ _
    have hsub : (0 : ℚ) ≤ ((timedSamples results).length : ℚ) - 1 := by
      have : (1 : ℚ) ≤ ((timedSamples results).length : ℚ) := by exact_mod_cast hn
      linarith
    have harg : (0 : ℚ) ≤ (95/100 : ℚ) * (((timedSamples results).length : ℚ) - 1) :=
      mul_nonneg (by norm_num) hsub
    have hfl : ⌊(95/100 : ℚ) * (((timedSamples results).length : ℚ) - 1)⌋
        ≤ ((timedSamples results).length : ℤ) - 1 := by
      calc ⌊(95/100 : ℚ) * (((timedSamples results).length : ℚ) - 1)⌋
          ≤ ⌊((timedSamples results).length : ℚ) - 1⌋ :=
            Int.floor_le_floor (mul_le_of_le_one_left hsub (by norm_num))
        _ = ((timedSamples results).length : ℤ) - 1 := by
            rw [show (((timedSamples results).length : ℚ) - 1)
                = ((((timedSamples results).length : ℤ) - 1 : ℤ) : ℚ) by push_cast; ring,
              Int.floor_intCast]
    have hidx : (⌊(95/100 : ℚ) * (((timedSamples results).length : ℚ) - 1)⌋).toNat
        < (timedSamples results).length := by omega
    have hbound : (⌊(95/100 : ℚ) * (((timedSamples results).length : ℚ) - 1)⌋).toNat
        < ((timedSamples results).insertionSort (· ≤ ·)).length := by
      rw [hlen]; exact hidx
    have hidxeq :
        (pyInt ((95/100 : ℚ)
          * (((((timedSamples results).insertionSort (· ≤ ·)).length : ℚ)) - 1))).toNat
        = (⌊(95/100 : ℚ) * (((timedSamples results).length : ℚ) - 1)⌋).toNat := by
      rw [hlen, pyInt_eq_floor _ harg]
    refine ⟨?_, ⟨hbound, ?_⟩⟩
    · simp only [summarize_load_results, hemp, Bool.false_eq_true, if_false]
    · simp only [summarize_load_results, hemp, Bool.false_eq_true, if_false]
      rw [hidxeq]
      congr 1
      rw [List.getD_eq_getElem?_getD, List.getElem?_eq_getElem hbound]
      simp
  · intro h0
    constructor <;> simp [summarize_load_results, h0]
  · simp only [summarize_load_results, hconc]
    norm_num [round3]
    rw [show (3000 : ℚ) = ((3000 : ℤ) : ℚ) by norm_num, pyRound_intCast]
    norm_num
  · simp only [summarize_load_results, hconc]
    norm_num [List.insertionSort, List.orderedInsert, pyInt]
    rw [show (Int.tdiv 19 5).toNat = 3 from by decide]
    norm_num

/-- Witness for C2: the nonempty-times case at times `[1,2,3,4,5]`. -/
theorem summarize_load_results_spec_witness :
    timedSamples ([1,2,3,4,5].map (fun q : ℚ => sampleOfTime q)) ≠ []
    ∧ (summarize_load_results ([1,2,3,4,5].map (fun q : ℚ => sampleOfTime q))).avg
        = some (round3
            ((timedSamples ([1,2,3,4,5].map (fun q : ℚ => sampleOfTime q))).sum
              / ((timedSamples
                    ([1,2,3,4,5].map (fun q : ℚ => sampleOfTime q))).length : ℚ))) :=
  ⟨by simp [timedSamples, sampleOfTime],
   ((summarize_load_results_spec
      ([1,2,3,4,5].map (fun q : ℚ => sampleOfTime q))).1
      (by simp [timedSamples, sampleOfTime])).1⟩

/-- C3: `auto_scale` returns the no-scaling estimate when `avg` is undefined
or nonpositive, otherwise `servers = max 1 ⌈avg/target⌉` with
`scaledAvg = round(avg/servers, 3)`, `processed = total`, `failed = 0`;
`servers` is always at least 1; and the two concrete instances
`estimate(avg=3, target=1.5)` and `estimate(avg=None, target=1.5)` come out
as the spec states. -/
theorem auto_scale_spec (summary : LoadSummary) (target : ℚ) (_ht : 0 < target) :
    (auto_scale none target summary
        = { servers := 1, scaled_avg := none,
            processed := summary.success, failed := summary.failures })
    ∧ (∀ a : ℚ, a ≤ 0 →
        auto_scale (some a) target summary
          = { servers := 1, scaled_avg := some a,
              processed := summary.success, failed := summary.failures })
    ∧ (∀ a : ℚ, 0 < a →
        (auto_scale (some a) target summary).servers = max 1 ⌈a / target⌉
          ∧ (auto_scale (some a) target summary).scaled_avg
              = some (round3 (a / ((max 1 ⌈a / target⌉ : ℤ) : ℚ)))
          ∧ (auto_scale (some a) target summary).processed = summary.total
          ∧ (auto_scale (some a) target summary).failed = 0)
    ∧ (∀ avg_time, 1 ≤ (auto_scale avg_time target summary).servers)
    ∧ auto_scale (some 3) (3/2) summary
        = { servers := 2, scaled_avg := some (3/2),
            processed := summary.total, failed := 0 }
    ∧ (auto_scale none (3/2) summary).servers = 1
    ∧ (auto_scale none (3/2) summary).failed = summary.failures := by
  refine ⟨rfl, ?_, ?_, ?_, ?_, rfl, rfl⟩
  · intro a ha
    simp [auto_scale, ha]
  · intro a ha
    simp [auto_scale, not_le.mpr ha]
  · intro avg_time
    match avg_time with
    | none => simp [auto_scale]
    | some a =>
        by_cases ha : a ≤ 0
        · simp [auto_scale, ha]
        · simp only [auto_scale, if_neg ha]
          exact le_max_left _ _
  · have h1 : ¬ (3 : ℚ) ≤ 0 := by norm_num
    have h2 : ⌈(3 : ℚ) / (3/2)⌉ = 2 := by
      norm_num
    simp only [auto_scale, if_neg h1, h2]
    norm_num [round3, pyRound]

/-- Witness for C3 at `target = 3/2` and the empty load summary. -/
theorem auto_scale_spec_witness :
    auto_scale (some 3) (3/2) (summarize_load_results [])
      = { servers := 2, scaled_avg := some (3/2),
          processed := (summarize_load_results []).total, failed := 0 } :=
  (auto_scale_spec (summarize_load_results []) (3/2) (by norm_num)).2.2.2.2.1

/-- C10: with a positive mean latency and a positive per-instance target,
the linearly-scaled per-instance latency `avg / servers` produced by
`auto_scale` never exceeds the target. -/
theorem auto_scale_meets_target (a target : ℚ) (summary : LoadSummary)
    (ha : 0 < a) (ht : 0 < target) :
    a / (((auto_scale (some a) target summary).servers : ℤ) : ℚ) ≤ target := by
  have hna : ¬ a ≤ 0 := not_le.mpr ha
  have hs : (auto_scale (some a) target summary).servers = max 1 ⌈a / target⌉ := by
    simp [auto_scale, hna]
  rw [hs]
  have h1 : (1 : ℤ) ≤ max 1 ⌈a / target⌉ := le_max_left _ _
  have hcpos : (0 : ℚ) < ((max 1 ⌈a / target⌉ : ℤ) : ℚ) := by
    exact_mod_cast lt_of_lt_of_le Int.zero_lt_one h1
  rw [div_le_iff₀ hcpos]
  have h2 : a / target ≤ ((max 1 ⌈a / target⌉ : ℤ) : ℚ) :=
    le_trans (Int.le_ceil _) (by exact_mod_cast le_max_right 1 ⌈a / target⌉)
  calc a = a / target * target := (div_mul_cancel₀ a ht.ne').symm
    _ ≤ ((max 1 ⌈a / target⌉ : ℤ) : ℚ) * target :=
        mul_le_mul_of_nonneg_right h2 ht.le
    _ = target * ((max 1 ⌈a / target⌉ : ℤ) : ℚ) := mul_comm _ _

/-- Witness for C10 at `avg = 3`, `target = 3/2`. -/
theorem auto_scale_meets_target_witness :
    (0 : ℚ) < 3 ∧ (0 : ℚ) < 3/2
      ∧ 3 / (((auto_scale (some 3) (3/2) (summarize_load_results [])).servers : ℤ) : ℚ)
          ≤ 3/2 :=
  ⟨by norm_num, by norm_num,
    auto_scale_meets_target 3 (3/2) (summarize_load_results [])
      (by norm_num) (by norm_num)⟩

/-- Helper: `analyze_page` records the audited URL verbatim. -/
theorem analyze_page_url (fetch : String → FetchOutcome) (url : String) :
    (analyze_page fetch url).url = url := by
  cases h : fetch url with
  | error e => simp [analyze_page, h]
  | ok p => simp [analyze_page, h]

/-- Helper: unfolding `crawlLoop` on an empty frontier. -/
theorem crawlLoop_nil (env : CrawlEnv) (s : String) (m : Nat) (v : List String)
    (r : List AuditRecord) : crawlLoop env s m [] v r = (r, v) := by
  rw [crawlLoop]

/-- Helper: unfolding `crawlLoop` when the page limit is reached. -/
theorem crawlLoop_stop (env : CrawlEnv) (s : String) (m : Nat) (u : String)
    (q v : List String) (r : List AuditRecord) (h : ¬ v.length < m) :
    crawlLoop env s m (u :: q) v r = (r, v) := by
  rw [crawlLoop, dif_neg h]

/-- Helper: unfolding `crawlLoop` on an already-visited URL. -/
theorem crawlLoop_skip (env : CrawlEnv) (s : String) (m : Nat) (u : String)
    (q v : List String) (r : List AuditRecord) (h1 : v.length < m) (h2 : u ∈ v) :
    crawlLoop env s m (u :: q) v r = crawlLoop env s m q v r := by
  rw [crawlLoop, dif_pos h1, dif_pos h2]

/-- Helper: unfolding `crawlLoop` when the link-extraction fetch raises. -/
theorem crawlLoop_linkErr (env : CrawlEnv) (s : String) (m : Nat) (u : String)
    (q v : List String) (r : List AuditRecord) (h1 : v.length < m) (h2 : u ∉ v)
    (h3 : env.linkFetch u = none) :
    crawlLoop env s m (u :: q) v r
      = crawlLoop env s m q (u :: v) (r ++ [analyze_page env.fetch u]) := by
  rw [crawlLoop, dif_pos h1, dif_neg h2, h3]

/-- Helper: unfolding `crawlLoop` on a 200 link-extraction response. -/
theorem crawlLoop_ok (env : CrawlEnv) (s : String) (m : Nat) (u : String)
    (q v : List String) (r : List AuditRecord) (hrefs : List String)
    (h1 : v.length < m) (h2 : u ∉ v) (h3 : env.linkFetch u = some (200, hrefs)) :
    crawlLoop env s m (u :: q) v r
      = crawlLoop env s m
          (enqueueLinks env s (u :: v) q
            (hrefs.map (fun a => stripFragment (env.urljoin u a))))
          (u :: v) (r ++ [analyze_page env.fetch u]) := by
  rw [crawlLoop, dif_pos h1, dif_neg h2, h3]
  simp

/-- Helper: unfolding `crawlLoop` on a non-200 link-extraction response. -/
theorem crawlLoop_badStatus (env : CrawlEnv) (s : String) (m : Nat) (u : String)
    (q v : List String) (r : List AuditRecord) (status : Int) (hrefs : List String)
    (h1 : v.length < m) (h2 : u ∉ v) (h3 : env.linkFetch u = some (status, hrefs))
    (h4 : status ≠ 200) :
    crawlLoop env s m (u :: q) v r
      = crawlLoop env s m q (u :: v) (r ++ [analyze_page env.fetch u]) := by
  rw [crawlLoop, dif_pos h1, dif_neg h2, h3]
  simp [h4]

/-- Helper: the audit-record URLs mirror the visited set (in reverse
visit order), the visited set stays duplicate-free, and its size never
exceeds the page limit. -/
theorem crawlLoop_main_invariant (env : CrawlEnv) (s : String) (m : Nat) :
    ∀ queue visited results,
      List.map (fun rec => rec.url) results = visited.reverse →
      visited.Nodup →
      visited.length ≤ m →
      (List.map (fun rec => rec.url) (crawlLoop env s m queue visited results).1
          = (crawlLoop env s m queue visited results).2.reverse)
      ∧ (crawlLoop env s m queue visited results).2.Nodup
      ∧ (crawlLoop env s m queue visited results).2.length ≤ m := by
  intro queue visited results
  induction queue, visited, results using crawlLoop.induct env s m with
  | case1 v r =>
      intro hmap hnodup hlen
      rw [crawlLoop_nil]
      exact ⟨hmap, hnodup, hlen⟩
  | case2 u rest v r h1 h2 ih =>
      intro hmap hnodup hlen
      rw [crawlLoop_skip env s m u rest v r h1 h2]
      exact ih hmap hnodup hlen
  | case3 u rest v r h1 h2 res3 h3 ih =>
      intro hmap hnodup hlen
      rw [crawlLoop_linkErr env s m u rest v r h1 h2 h3]
      exact ih (by
        simp [show res3 = r ++ [analyze_page env.fetch u] from rfl, hmap,
          analyze_page_url])
        (List.nodup_cons.mpr ⟨h2, hnodup⟩) (by simp; omega)
  | case4 u rest v r h1 h2 res4 hrefs h3 ih =>
      intro hmap hnodup hlen
      rw [crawlLoop_ok env s m u rest v r hrefs h1 h2 h3]
      exact ih (by
        simp [show res4 = r ++ [analyze_page env.fetch u] from rfl, hmap,
          analyze_page_url])
        (List.nodup_cons.mpr ⟨h2, hnodup⟩) (by simp; omega)
  | case5 u rest v r h1 h2 res5 status hrefs h3 h4 ih =>
      intro hmap hnodup hlen
      rw [crawlLoop_badStatus env s m u rest v r status hrefs h1 h2 h3 h4]
      exact ih (by
        simp [show res5 = r ++ [analyze_page env.fetch u] from rfl, hmap,
          analyze_page_url])
        (List.nodup_cons.mpr ⟨h2, hnodup⟩) (by simp; omega)
  | case6 u rest v r h =>
      intro hmap hnodup hlen
      rw [crawlLoop_stop env s m u rest v r h]
      exact ⟨hmap, hnodup, hlen⟩

/-- Helper: a fragment-stripped link contains no `#`. -/
theorem stripFragment_no_hash (x : String) : '#' ∉ (stripFragment x).data := by
  intro hmem
  rw [stripFragment] at hmem
  have h := List.mem_takeWhile_imp hmem
  simp at h

/-- Helper: everything on the frontier after the link loop came from the
old frontier or from the extracted links. -/
theorem enqueueLinks_mem (env : CrawlEnv) (s : String) (visited : List String) :
    ∀ links queue x, x ∈ enqueueLinks env s visited queue links →
      x ∈ queue ∨ x ∈ links := by
  intro links
  induction links with
  | nil =>
      intro queue x hx
      rw [enqueueLinks] at hx
      exact Or.inl hx
  | cons l ls ih =>
      intro queue x hx
      rw [enqueueLinks] at hx
      rcases ih _ x hx with hq | hls
      · by_cases hg : env.netloc l = env.netloc s ∧ l ∉ visited ∧ l ∉ queue
        · rw [if_pos hg] at hq
          rcases List.mem_append.mp hq with h | h
          · exact Or.inl h
          · exact Or.inr (List.mem_cons.mpr (Or.inl (List.mem_singleton.mp h)))
        · rw [if_neg hg] at hq
          exact Or.inl hq
      · exact Or.inr (List.mem_cons.mpr (Or.inr hls))

/-- Helper: the link loop only enqueues links on the start URL's host. -/
theorem enqueueLinks_netloc (env : CrawlEnv) (s : String) (visited : List String) :
    ∀ links queue, (∀ u ∈ queue, env.netloc u = env.netloc s) →
      ∀ u ∈ enqueueLinks env s visited queue links, env.netloc u = env.netloc s := by
  intro links
  induction links with
  | nil =>
      intro queue hq u hu
      rw [enqueueLinks] at hu
      exact hq u hu
  | cons l ls ih =>
      intro queue hq u hu
      rw [enqueueLinks] at hu
      refine ih _ ?_ u hu
      intro x hx
      by_cases hg : env.netloc l = env.netloc s ∧ l ∉ visited ∧ l ∉ queue
      · rw [if_pos hg] at hx
        rcases List.mem_append.mp hx with h | h
        · exact hq x h
        · rw [List.mem_singleton.mp h]
          exact hg.1
      · rw [if_neg hg] at hx
        exact hq x hx

/-- Helper: every audited record's URL shares the start URL's netloc, as
long as the frontier and the accumulated results do. -/
theorem crawlLoop_netloc_invariant (env : CrawlEnv) (s : String) (m : Nat) :
    ∀ queue visited results,
      (∀ u ∈ queue, env.netloc u = env.netloc s) →
      (∀ rec ∈ results, env.netloc rec.url = env.netloc s) →
      ∀ rec ∈ (crawlLoop env s m queue visited results).1,
        env.netloc rec.url = env.netloc s := by
  intro queue visited results
  induction queue, visited, results using crawlLoop.induct env s m with
  | case1 v r =>
      intro _ hres rec hrec
      rw [crawlLoop_nil] at hrec
      exact hres rec hrec
  | case2 u rest v r h1 h2 ih =>
      intro hq hres rec hrec
      rw [crawlLoop_skip env s m u rest v r h1 h2] at hrec
      exact ih (fun x hx => hq x (List.mem_cons.mpr (Or.inr hx))) hres rec hrec
  | case3 u rest v r h1 h2 res3 h3 ih =>
      intro hq hres rec hrec
      rw [crawlLoop_linkErr env s m u rest v r h1 h2 h3] at hrec
      refine ih (fun x hx => hq x (List.mem_cons.mpr (Or.inr hx))) ?_ rec hrec
      intro x hx
      rcases List.mem_append.mp hx with h | h
      · exact hres x h
      · rw [List.mem_singleton.mp h, analyze_page_url]
        exact hq u (List.mem_cons.mpr (Or.inl rfl))
  | case4 u rest v r h1 h2 res4 hrefs h3 ih =>
      intro hq hres rec hrec
      rw [crawlLoop_ok env s m u rest v r hrefs h1 h2 h3] at hrec
      refine ih ?_ ?_ rec hrec
      · exact enqueueLinks_netloc env s (u :: v) _ rest
          (fun x hx => hq x (List.mem_cons.mpr (Or.inr hx)))
      · intro x hx
        rcases List.mem_append.mp hx with h | h
        · exact hres x h
        · rw [List.mem_singleton.mp h, analyze_page_url]
          exact hq u (List.mem_cons.mpr (Or.inl rfl))
  | case5 u rest v r h1 h2 res5 status hrefs h3 h4 ih =>
      intro hq hres rec hrec
      rw [crawlLoop_badStatus env s m u rest v r status hrefs h1 h2 h3 h4] at hrec
      refine ih (fun x hx => hq x (List.mem_cons.mpr (Or.inr hx))) ?_ rec hrec
      intro x hx
      rcases List.mem_append.mp hx with h | h
      · exact hres x h
      · rw [List.mem_singleton.mp h, analyze_page_url]
        exact hq u (List.mem_cons.mpr (Or.inl rfl))
  | case6 u rest v r h =>
      intro _ hres rec hrec
      rw [crawlLoop_stop env s m u rest v r h] at hrec
      exact hres rec hrec

/-- Helper: every URL in the visited set is either the start URL or
fragment-free, as long as the frontier satisfies the same property. -/
theorem crawlLoop_fragment_invariant (env : CrawlEnv) (s : String) (m : Nat) :
    ∀ queue visited results,
      (∀ u ∈ visited, u = s ∨ '#' ∉ u.data) →
      (∀ u ∈ queue, u = s ∨ '#' ∉ u.data) →
      ∀ u ∈ (crawlLoop env s m queue visited results).2,
        u = s ∨ '#' ∉ u.data := by
  intro queue visited results
  induction queue, visited, results using crawlLoop.induct env s m with
  | case1 v r =>
      intro hv _ u hu
      rw [crawlLoop_nil] at hu
      exact hv u hu
  | case2 u rest v r h1 h2 ih =>
      intro hv hq x hx
      rw [crawlLoop_skip env s m u rest v r h1 h2] at hx
      exact ih hv (fun y hy => hq y (List.mem_cons.mpr (Or.inr hy))) x hx
  | case3 u rest v r h1 h2 res3 h3 ih =>
      intro hv hq x hx
      rw [crawlLoop_linkErr env s m u rest v r h1 h2 h3] at hx
      refine ih ?_ (fun y hy => hq y (List.mem_cons.mpr (Or.inr hy))) x hx
      intro y hy
      rcases List.mem_cons.mp hy with h | h
      · rw [h]
        exact hq u (List.mem_cons.mpr (Or.inl rfl))
      · exact hv y h
  | case4 u rest v r h1 h2 res4 hrefs h3 ih =>
      intro hv hq x hx
      rw [crawlLoop_ok env s m u rest v r hrefs h1 h2 h3] at hx
      refine ih ?_ ?_ x hx
      · intro y hy
        rcases List.mem_cons.mp hy with h | h
        · rw [h]
          exact hq u (List.mem_cons.mpr (Or.inl rfl))
        · exact hv y h
      · intro y hy
        rcases enqueueLinks_mem env s (u :: v) _ rest y hy with h | h
        · exact hq y (List.mem_cons.mpr (Or.inr h))
        · right
          obtain ⟨a, -, ha⟩ := List.mem_map.mp h
          rw [← ha]
          exact stripFragment_no_hash _
  | case5 u rest v r h1 h2 res5 status hrefs h3 h4 ih =>
      intro hv hq x hx
      rw [crawlLoop_badStatus env s m u rest v r status hrefs h1 h2 h3 h4] at hx
      refine ih ?_ (fun y hy => hq y (List.mem_cons.mpr (Or.inr hy))) x hx
      intro y hy
      rcases List.mem_cons.mp hy with h | h
      · rw [h]
        exact hq u (List.mem_cons.mpr (Or.inl rfl))
      · exact hv y h
  | case6 u rest v r h =>
      intro hv _ x hx
      rw [crawlLoop_stop env s m u rest v r h] at hx
      exact hv x hx

/-- Helper: evaluating a one-page crawl of `cEnvNoLinks`. -/
theorem crawl_site_single_eval :
    crawl_site cEnvNoLinks "u" 1 = [analyze_page cEnvNoLinks.fetch "u"] := by
  rw [crawl_site, crawlLoop]
  rw [dif_pos (by norm_num : ([] : List String).length < 1)]
  rw [dif_neg (by simp : ¬ "u" ∈ ([] : List String))]
  simp only [crawlLoop]
  rfl

/-- Helper: the visited set of a one-page crawl seeded with a URL that
carries a fragment. -/
theorem crawlVisited_hash_eval :
    crawlVisited cEnvNoLinks "http://h/p#f" 1 = ["http://h/p#f"] := by
  rw [crawlVisited, crawlLoop]
  rw [dif_pos (by norm_num : ([] : List String).length < 1)]
  rw [dif_neg (by simp : ¬ "http://h/p#f" ∈ ([] : List String))]
  simp only [crawlLoop]
  rfl

/-- C1: a crawl with `pageLimit ≥ 1` returns at most `pageLimit` audit
records, and no URL appears in two distinct records (each URL is audited
at most once; the visited set, mirrored by the record URLs, never exceeds
the limit). -/
theorem crawl_site_bounded_spec (env : CrawlEnv) (s : String) (m : Nat)
    (_hm : 1 ≤ m) :
    (crawl_site env s m).length ≤ m
    ∧ (List.map (fun rec => rec.url) (crawl_site env s m)).Nodup
    ∧ (crawlVisited env s m).length ≤ m := by
  obtain ⟨hmap, hnodup, hlen⟩ :=
    crawlLoop_main_invariant env s m [s] [] [] (by simp) (by simp) (by simp)
  refine ⟨?_, ?_, hlen⟩
  · have hlength := congrArg List.length hmap
    simp only [List.length_map, List.length_reverse] at hlength
    show (crawlLoop env s m [s] [] []).1.length ≤ m
    omega
  · show (List.map (fun rec => rec.url) (crawlLoop env s m [s] [] []).1).Nodup
    rw [hmap]
    exact List.nodup_reverse.mpr hnodup

/-- Witness for C1 on a concrete one-page crawl. -/
theorem crawl_site_bounded_spec_witness :
    (crawl_site cEnvNoLinks "u" 1).length ≤ 1
    ∧ (List.map (fun rec => rec.url) (crawl_site cEnvNoLinks "u" 1)).Nodup
    ∧ (crawlVisited cEnvNoLinks "u" 1).length ≤ 1 :=
  crawl_site_bounded_spec cEnvNoLinks "u" 1 (by norm_num)

/-- C8: every audited record of a crawl (the start URL included) has the
same netloc as the start URL, because only same-host links are ever
enqueued. -/
theorem crawl_same_host_spec (env : CrawlEnv) (s : String) (m : Nat) :
    ∀ rec ∈ crawl_site env s m, env.netloc rec.url = env.netloc s := by
  intro rec hrec
  refine crawlLoop_netloc_invariant env s m [s] [] [] ?_ ?_ rec hrec
  · intro u hu
    rw [List.mem_singleton.mp hu]
  · intro rec h
    cases h

/-- Witness for C8 on a concrete one-page crawl. -/
theorem crawl_same_host_spec_witness :
    cEnvNoLinks.netloc (analyze_page cEnvNoLinks.fetch "u").url
      = cEnvNoLinks.netloc "u" :=
  crawl_same_host_spec cEnvNoLinks "u" 1 (analyze_page cEnvNoLinks.fetch "u")
    (by rw [crawl_site_single_eval]; exact List.mem_singleton.mpr rfl)

/-- C7 (amended): every member of the visited set other than the start URL
is fragment-stripped (contains no `#`); the start URL itself is enqueued
and visited verbatim, so a fragment on it survives into the visited set. -/
theorem crawl_visited_fragment_spec (env : CrawlEnv) (s : String) (m : Nat) :
    ∀ u ∈ crawlVisited env s m, u = s ∨ '#' ∉ u.data := by
  intro u hu
  refine crawlLoop_fragment_invariant env s m [s] [] [] ?_ ?_ u hu
  · intro u h
    cases h
  · intro u h
    left
    exact List.mem_singleton.mp h

/-- Counterexample for C7 as stated: starting a one-page crawl at
`"http://h/p#f"` puts that URL — fragment and all — into the visited set,
so the visited set is not fragment-free. -/
theorem crawl_visited_fragment_counterexample :
    "http://h/p#f" ∈ crawlVisited cEnvNoLinks "http://h/p#f" 1
    ∧ '#' ∈ "http://h/p#f".data := by
  rw [crawlVisited_hash_eval]
  exact ⟨List.mem_singleton.mpr rfl, by decide⟩

/-- Witness for C7 (amended) at the concrete fragment-bearing crawl. -/
theorem crawl_visited_fragment_spec_witness :
    "http://h/p#f" = "http://h/p#f" ∨ '#' ∉ "http://h/p#f".data :=
  crawl_visited_fragment_spec cEnvNoLinks "http://h/p#f" 1 "http://h/p#f"
    (by rw [crawlVisited_hash_eval]; exact List.mem_singleton.mpr rfl)

end WebsiteAudit
